import Mathlib

/-!
Shallow embedding of the core of the `zi` terminal-UI toolkit
(`src/zi/src/terminal/input.rs`, `src/zi/src/component/template.rs`,
`src/zi/src/components/input.rs`, `src/examples/counter.rs`),
together with theorems settling the specification claims about it.

Rust `char` values are embedded as their `Nat` code points; Rust `u64`
and `usize` values as `Nat` (with explicit saturation where the source
saturates); Rust `Option`-returning panics (`expect`) as `Option`
results, `none` marking the panic.
-/

/-- Result of a component update: whether a re-render is needed.
Mirrors `zi::ShouldRender`. -/
inductive ShouldRender where
  | Yes
  | No
deriving DecidableEq, Repr

/-- Modelled from the spec: layout rectangle (`zi::terminal::Rect`,
whose definition is not part of the extracted sources). Only carried
through and compared for equality here, so the exact fields are an
opaque origin/size pair. -/
structure Rect where
  origin : Nat × Nat
  size : Nat × Nat
deriving DecidableEq, Repr

/-! ## Key model (`src/zi/src/terminal/input.rs`) -/

/-- Rust `char::is_ascii_uppercase` on the embedded code point. -/
def isAsciiUppercase (c : Nat) : Bool :=
  65 ≤ c && c ≤ 90

/-- Rust `char::is_ascii_lowercase` on the embedded code point. -/
def isAsciiLowercase (c : Nat) : Bool :=
  97 ≤ c && c ≤ 122

/-- Rust `char::to_ascii_uppercase` on the embedded code point. -/
def toAsciiUppercase (c : Nat) : Nat :=
  if isAsciiLowercase c then c - 32 else c

/-- `KeyCode` from `terminal/input.rs`, variants in declaration order
(the derived `PartialOrd` compares by this order). `F` carries the
function-key number, `Char` the character's code point. -/
inductive KeyCode where
  | Backspace
  | Enter
  | Left
  | Right
  | Up
  | Down
  | Home
  | End
  | PageUp
  | PageDown
  | Tab
  | BackTab
  | Delete
  | Insert
  | F (n : Nat)
  | Char (c : Nat)
  | Null
  | Esc
deriving DecidableEq, Repr

/-- Discriminant of a `KeyCode` in declaration order, used by the
derived ordering. -/
def KeyCode.discriminant : KeyCode → Nat
  | .Backspace => 0
  | .Enter => 1
  | .Left => 2
  | .Right => 3
  | .Up => 4
  | .Down => 5
  | .Home => 6
  | .End => 7
  | .PageUp => 8
  | .PageDown => 9
  | .Tab => 10
  | .BackTab => 11
  | .Delete => 12
  | .Insert => 13
  | .F _ => 14
  | .Char _ => 15
  | .Null => 16
  | .Esc => 17

/-- Derived `PartialOrd` on `KeyCode`: variant order first, then the
payload for `F`/`Char` (total on this type, so an `Ordering`). -/
def keyCodeCmp (a b : KeyCode) : Ordering :=
  match a, b with
  | .F m, .F n => compare m n
  | .Char c, .Char d => compare c d
  | _, _ => compare a.discriminant b.discriminant

/-- `KeyModifiers` bitflags (SHIFT = 1, CONTROL = 2, ALT = 4),
embedded as one `Bool` per defined flag. -/
structure KeyModifiers where
  shift : Bool
  control : Bool
  alt : Bool
deriving DecidableEq, Repr

/-- The `SHIFT` flag. -/
def KeyModifiers.SHIFT : KeyModifiers := ⟨true, false, false⟩

/-- The `CONTROL` flag. -/
def KeyModifiers.CONTROL : KeyModifiers := ⟨false, true, false⟩

/-- The `ALT` flag. -/
def KeyModifiers.ALT : KeyModifiers := ⟨false, false, true⟩

/-- `KeyModifiers::empty()` (also `NONE`). -/
def KeyModifiers.empty : KeyModifiers := ⟨false, false, false⟩

/-- Bitflags `contains`: every flag set in `other` is set in `self`. -/
def KeyModifiers.contains (self other : KeyModifiers) : Bool :=
  (!other.shift || self.shift) && (!other.control || self.control)
    && (!other.alt || self.alt)

/-- Bitflags `insert`: union of flag sets. -/
def KeyModifiers.insert (self other : KeyModifiers) : KeyModifiers :=
  ⟨self.shift || other.shift, self.control || other.control,
    self.alt || other.alt⟩

/-- Numeric value of the underlying `u8` bits; the bitflags-derived
`Ord` compares this number. -/
def KeyModifiers.bits (m : KeyModifiers) : Nat :=
  (if m.shift then 1 else 0) + (if m.control then 2 else 0)
    + (if m.alt then 4 else 0)

/-- `KeyEvent`: a key code plus modifiers. -/
structure KeyEvent where
  code : KeyCode
  modifiers : KeyModifiers
deriving DecidableEq, Repr

/-- `KeyEvent::new`. -/
def KeyEvent.new (code : KeyCode) (modifiers : KeyModifiers) : KeyEvent :=
  ⟨code, modifiers⟩

/-- `impl From<KeyCode> for KeyEvent`: zero modifiers. -/
def KeyEvent.fromCode (code : KeyCode) : KeyEvent :=
  ⟨code, KeyModifiers.empty⟩

/-- `KeyEvent::normalize_case`: on a `Char` code, if the character is
ASCII uppercase, insert SHIFT; otherwise, if SHIFT is contained,
replace the code by its ASCII uppercase form (the modifiers are left
as they are in this branch). Any non-`Char` code returns the event
unchanged (the early `return self`). -/
def KeyEvent.normalize_case (self : KeyEvent) : KeyEvent :=
  match self.code with
  | KeyCode.Char c =>
    if isAsciiUppercase c then
      { self with modifiers := self.modifiers.insert KeyModifiers.SHIFT }
    else if self.modifiers.contains KeyModifiers.SHIFT then
      { self with code := KeyCode.Char (toAsciiUppercase c) }
    else
      self
  | _ => self

/-- `impl PartialEq for KeyEvent`: both sides are normalized and their
`code` and `modifiers` fields compared. -/
def keyEventEq (a b : KeyEvent) : Bool :=
  (a.normalize_case.code == b.normalize_case.code)
    && (a.normalize_case.modifiers == b.normalize_case.modifiers)

/-- `impl Hash for KeyEvent` feeds exactly the normalized `code` and
`modifiers` to the hasher, so the hasher input is determined by this
pair. -/
def keyEventHashData (e : KeyEvent) : KeyCode × KeyModifiers :=
  (e.normalize_case.code, e.normalize_case.modifiers)

/-- Derived `PartialOrd` on `KeyEvent`: lexicographic on the raw
`code` then `modifiers` fields (no normalization; `PartialEq` is
manual but `PartialOrd` is derived). -/
def keyEventCmp (a b : KeyEvent) : Ordering :=
  (keyCodeCmp a.code b.code).then (compare a.modifiers.bits b.modifiers.bits)

/-! ### Helper lemmas for the key model -/

theorem contains_SHIFT (m : KeyModifiers) :
    m.contains KeyModifiers.SHIFT = m.shift := by
  cases m with
  | mk s c a => simp [KeyModifiers.contains, KeyModifiers.SHIFT]

theorem insert_SHIFT_of_shift (m : KeyModifiers) (h : m.shift = true) :
    m.insert KeyModifiers.SHIFT = m := by
  cases m with
  | mk s c a =>
    simp_all [KeyModifiers.insert, KeyModifiers.SHIFT]

theorem insert_SHIFT_shift (m : KeyModifiers) :
    (m.insert KeyModifiers.SHIFT).shift = true := by
  cases m with
  | mk s c a => simp [KeyModifiers.insert, KeyModifiers.SHIFT]

theorem isAsciiUppercase_toAsciiUppercase (c : Nat)
    (h : isAsciiLowercase c = true) :
    isAsciiUppercase (toAsciiUppercase c) = true := by
  simp only [isAsciiLowercase, Bool.and_eq_true, decide_eq_true_eq] at h
  unfold toAsciiUppercase
  rw [if_pos (by simp only [isAsciiLowercase, Bool.and_eq_true,
    decide_eq_true_eq]; omega)]
  simp only [isAsciiUppercase, Bool.and_eq_true, decide_eq_true_eq]
  omega

theorem toAsciiUppercase_of_not_lower (c : Nat)
    (h : isAsciiLowercase c = false) :
    toAsciiUppercase c = c := by
  simp [toAsciiUppercase, h]

theorem not_upper_of_lower (c : Nat) (h : isAsciiLowercase c = true) :
    isAsciiUppercase c = false := by
  simp only [isAsciiLowercase, Bool.and_eq_true, decide_eq_true_eq] at h
  simp only [isAsciiUppercase, Bool.and_eq_true, Bool.and_eq_false_iff,
    decide_eq_false_iff_not]
  omega

/-! ## Component identity and definitions
(`src/zi/src/component/template.rs`) -/

/-- `ComponentId`: the concrete component type's `TypeId` (embedded as
a `Nat` tag; distinct concrete types have distinct tags), the 64-bit
position-derived id, and the diagnostic-only type name. -/
structure ComponentId where
  type_id : Nat
  id : Nat
  type_name : String
deriving Repr

/-- `impl PartialEq for ComponentId`: `type_name` is ignored. -/
def componentIdEq (a b : ComponentId) : Bool :=
  (a.type_id == b.type_id) && (a.id == b.id)

/-- `impl Hash for ComponentId` feeds exactly `type_id` then `id` to
the hasher, so the hasher input is determined by this pair. -/
def componentIdHashData (c : ComponentId) : Nat × Nat :=
  (c.type_id, c.id)

/-- `ComponentId::new::<T>(id)`: `type_id` and `type_name` come from
the concrete type `T`, passed here explicitly as the embedding of
`TypeId::of::<T>` and `type_name::<T>`. -/
def ComponentId.new (type_id : Nat) (type_name : String) (id : Nat) :
    ComponentId :=
  ⟨type_id, id, type_name⟩

/-- Modelled from the spec: `ComponentKey` (`component/layout.rs`, not
among the extracted sources) is an opaque explicit disambiguation key;
embedded as a `Nat`. -/
abbrev ComponentKey := Nat

/-- `ComponentDef<ComponentT>`: optional explicit key and the
properties held until consumed (`Option` mirrors the source field). -/
structure ComponentDef (P : Type) where
  key : Option ComponentKey
  properties : Option P

/-- `ComponentDef::new`. -/
def ComponentDef.new {P : Type} (key : Option ComponentKey) (properties : P) :
    ComponentDef P :=
  ⟨key, some properties⟩

/-- `ComponentDef::properties_unwrap`: swaps the held properties out;
returns the value and the definition afterwards, or `none` where the
source panics ("Already called a method that used the Properties
value"). -/
def ComponentDef.properties_unwrap {P : Type} (self : ComponentDef P) :
    Option (P × ComponentDef P) :=
  match self.properties with
  | some properties => some (properties, { self with properties := none })
  | none => none

/-- `Template::generate_id` for `ComponentDef<ComponentT>`:
`ComponentId::new::<ComponentT>(position_hash)`. The held key and
properties are not read. The concrete type's tag and name are passed
explicitly as in `ComponentId.new`. -/
def ComponentDef.generate_id {P : Type} (type_id : Nat) (type_name : String)
    (_self : ComponentDef P) (position_hash : Nat) : ComponentId :=
  ComponentId.new type_id type_name position_hash

/-! ## Type-erasure boundary (`Renderable` impl in `template.rs`)

`Box<dyn Any>` is embedded as a closed-universe box: a `Nat` type tag
together with a value of the type the tag denotes (a family
`Val : Nat → Type`); `downcast` succeeds exactly on the matching
tag. -/

/-- The erased box behind `DynamicMessage` / `DynamicProperties`. -/
structure AnyBox (Val : Nat → Type) where
  tag : Nat
  value : Val tag

/-- `Box<dyn Any>::downcast::<T>`: succeeds iff the stored tag is the
requested tag, returning the stored value at the requested type. -/
def AnyBox.downcast {Val : Nat → Type} (t : Nat) (b : AnyBox Val) :
    Option (Val t) :=
  if h : b.tag = t then some (cast (congrArg Val h) b.value) else none

/-- `<ComponentT as Renderable>::update`: downcast the erased message
to the component's `Message` type (tag `t`) and apply the concrete
`update`; a mismatch is the source's `expect` panic, embedded as an
`Except.error` carrying the panic message. -/
def renderableUpdate {Val : Nat → Type} {S : Type} (t : Nat)
    (updateFn : S → Val t → S × ShouldRender) (self : S)
    (message : AnyBox Val) : Except String (S × ShouldRender) :=
  match message.downcast t with
  | some m => Except.ok (updateFn self m)
  | none => Except.error "Incorrect Message type when downcasting"

/-- `<ComponentT as Renderable>::change`: same shape for the erased
properties. -/
def renderableChange {Val : Nat → Type} {S : Type} (t : Nat)
    (changeFn : S → Val t → S × ShouldRender) (self : S)
    (properties : AnyBox Val) : Except String (S × ShouldRender) :=
  match properties.downcast t with
  | some p => Except.ok (changeFn self p)
  | none => Except.error "Incorrect Properties type when downcasting"

/-! ## Binding tables -/

/-- Modelled from the spec: one match rule of a binding table
(`component/bindings.rs`, not among the extracted sources) — either a
fixed key-chord sequence or the `AnyCharacter`-style predicate class.
The message-producing closures attached to rules are not comparable
values and are not part of the rule. -/
inductive BindingRule where
  | keys (chords : List KeyEvent)
  | anyCharacter
deriving DecidableEq, Repr

/-- Modelled from the spec: the per-component binding table
(`Bindings<T>` / `DynamicBindings`): a focus flag and the registered
(command name, rule) entries, in registration order. -/
structure Bindings where
  focus : Bool
  commands : List (String × BindingRule)
deriving DecidableEq, Repr

/-- Modelled from the spec: a freshly constructed, empty binding table
(`DynamicBindings::new::<ComponentT>()`). -/
def Bindings.new : Bindings :=
  ⟨false, []⟩

/-- Modelled from the spec: the table's emptiness check used by the
lazy-rebuild short-circuit. -/
def Bindings.is_empty (self : Bindings) : Bool :=
  self.commands.isEmpty

/-- Modelled from the spec: `set_focus`. -/
def Bindings.set_focus (self : Bindings) (focus : Bool) : Bindings :=
  { self with focus := focus }

/-- Modelled from the spec: registering one rule under a command name
(`add`, and each `.with(...)` of a `command(...)` chain). -/
def Bindings.add (self : Bindings) (name : String) (rule : BindingRule) :
    Bindings :=
  { self with commands := self.commands ++ [(name, rule)] }

/-- `Template::create` for `ComponentDef<ComponentT>`: consumes the
held properties (panicking — `none` — if already consumed), builds the
concrete component from them, the frame and the link (the concrete
constructor is passed as `createFn`; the link is embedded as the
`ComponentId` it carries, the sender being opaque), and pairs it with
a fresh empty binding table. -/
def ComponentDef.create {P C : Type} (createFn : P → Rect → ComponentId → C)
    (self : ComponentDef P) (component_id : ComponentId) (frame : Rect) :
    Option ((C × Bindings) × ComponentDef P) :=
  (self.properties_unwrap).map fun pd =>
    ((createFn pd.1 frame component_id, Bindings.new), pd.2)

/-- `DynamicProperties` as handed out by `dynamic_properties`: the box
keeps the concrete `Properties` value (the closed-universe erasure of
such boxes is `AnyBox` above). -/
structure DynamicProperties (P : Type) where
  boxed : P

/-- `Template::dynamic_properties` for `ComponentDef<ComponentT>`:
consumes the held properties (panicking — `none` — if already
consumed) and boxes them. -/
def ComponentDef.dynamic_properties {P : Type} (self : ComponentDef P) :
    Option (DynamicProperties P × ComponentDef P) :=
  (self.properties_unwrap).map fun pd => (⟨pd.1⟩, pd.2)

/-! ## Counter example component (`src/examples/counter.rs`) -/

/-- The `Counter` message type. -/
inductive CounterMessage where
  | Increment
  | Decrement
deriving DecidableEq, Repr

/-- The `Counter` properties: the initial value. -/
structure CounterProperties where
  initial_count : Nat
deriving DecidableEq, Repr

/-- The `Counter` component state. The `link : ComponentLink<Self>`
field is an opaque message-sending handle never read by `create`,
`update` or `bindings`; it is embedded as `Unit`. -/
structure Counter where
  count : Nat
  link : Unit
deriving DecidableEq, Repr

/-- `usize::MAX` (64-bit target). -/
def USIZE_MAX : Nat := 2 ^ 64 - 1

/-- `usize::saturating_add`. -/
def saturatingAdd (a b : Nat) : Nat :=
  min (a + b) USIZE_MAX

/-- `usize::saturating_sub`; on `Nat` the truncated subtraction is
exactly the saturation at zero. -/
def saturatingSub (a b : Nat) : Nat :=
  a - b

/-- `Counter::create`: the count starts at `initial_count`; the frame
is unused. -/
def Counter.create (properties : CounterProperties) (_frame : Rect)
    (link : Unit) : Counter :=
  { count := properties.initial_count, link := link }

/-- `Counter::update`: compute the saturating new count; if it
differs, store it and report `Yes`, else report `No`. -/
def Counter.update (self : Counter) (message : CounterMessage) :
    Counter × ShouldRender :=
  let new_count :=
    match message with
    | CounterMessage.Increment => saturatingAdd self.count 1
    | CounterMessage.Decrement => saturatingSub self.count 1
  if new_count ≠ self.count then
    ({ self with count := new_count }, ShouldRender.Yes)
  else
    (self, ShouldRender.No)

/-- `Counter::bindings`: return early if the table is non-empty;
otherwise set focus and register increment (`+`, `=`), decrement
(`-`) and exit (`Ctrl-c`, `Esc`). -/
def Counter.bindings (bindings : Bindings) : Bindings :=
  if bindings.is_empty = false then
    bindings
  else
    let bindings := bindings.set_focus true
    let bindings := bindings.add "increment"
      (BindingRule.keys [KeyEvent.fromCode (KeyCode.Char 43)])
    let bindings := bindings.add "increment"
      (BindingRule.keys [KeyEvent.fromCode (KeyCode.Char 61)])
    let bindings := bindings.add "decrement"
      (BindingRule.keys [KeyEvent.fromCode (KeyCode.Char 45)])
    let bindings := bindings.add "exit"
      (BindingRule.keys [KeyEvent.new (KeyCode.Char 99) KeyModifiers.CONTROL])
    let bindings := bindings.add "exit"
      (BindingRule.keys [KeyEvent.fromCode KeyCode.Esc])
    bindings

/-! ## Input component (`src/zi/src/components/input.rs`)

The rope/cursor arithmetic lives in `crate::text` (not among the
extracted sources); `Rope`, `Cursor`, styles and the `on_change`
callback are therefore type parameters, and the cursor operations the
`update` arms call are a parameter record. -/

/-- `InputStyle`, generic over the opaque `Style` values it passes
through. -/
structure InputStyle (Style : Type) where
  content : Style
  cursor : Style

/-- `InputProperties`. -/
structure InputProperties (Style Rope Cursor Cb : Type) where
  style : InputStyle Style
  content : Rope
  cursor : Cursor
  on_change : Option Cb
  focused : Bool

/-- The `Input` component state: its properties and frame. -/
structure Input (Style Rope Cursor Cb : Type) where
  properties : InputProperties Style Rope Cursor Cb
  frame : Rect

/-- `InputChange`, the payload emitted through `on_change`. -/
structure InputChange (Rope Cursor : Type) where
  content : Option Rope
  cursor : Cursor

/-- The `Input` message type (`components/input.rs`); the inserted
character is embedded as its code point. -/
inductive InputMessage where
  | CursorLeft
  | CursorRight
  | InsertChar (c : Nat)
  | DeleteBackward
  | DeleteForward
  | StartOfLine
  | EndOfLine
deriving DecidableEq, Repr

/-- The cursor/rope operations from `crate::text` that `Input::update`
calls; mutation of the cursor and content is embedded as returning the
new values. -/
structure CursorOps (Rope Cursor : Type) where
  move_left : Cursor → Rope → Cursor
  move_right : Cursor → Rope → Cursor
  move_to_start_of_line : Cursor → Rope → Cursor
  move_to_end_of_buffer : Cursor → Rope → Cursor
  insert_char : Cursor → Rope → Nat → Cursor × Rope
  backspace : Cursor → Rope → Cursor × Rope
  delete : Cursor → Rope → Cursor × Rope

/-- `Input::update`: works on a clone of the cursor and (for editing
messages) a clone of the content, emits an `InputChange` through
`on_change` when the callback is present, leaves `self` untouched and
always returns `Yes`. The emitted change (if any) is returned
alongside, embedding the callback invocation. -/
def Input.update {Style Rope Cursor Cb : Type} (ops : CursorOps Rope Cursor)
    (self : Input Style Rope Cursor Cb) (message : InputMessage) :
    Input Style Rope Cursor Cb × ShouldRender
      × Option (InputChange Rope Cursor) :=
  let cursor := self.properties.cursor
  let step : Cursor × Option Rope :=
    match message with
    | InputMessage.CursorLeft =>
      (ops.move_left cursor self.properties.content, none)
    | InputMessage.CursorRight =>
      (ops.move_right cursor self.properties.content, none)
    | InputMessage.StartOfLine =>
      (ops.move_to_start_of_line cursor self.properties.content, none)
    | InputMessage.EndOfLine =>
      (ops.move_to_end_of_buffer cursor self.properties.content, none)
    | InputMessage.InsertChar character =>
      let inserted := ops.insert_char cursor self.properties.content character
      let new_content := inserted.2
      (ops.move_right inserted.1 new_content, some new_content)
    | InputMessage.DeleteBackward =>
      let changed := ops.backspace cursor self.properties.content
      (changed.1, some changed.2)
    | InputMessage.DeleteForward =>
      let changed := ops.delete cursor self.properties.content
      (changed.1, some changed.2)
  let emitted := self.properties.on_change.map fun _ =>
    ({ cursor := step.1, content := step.2 } : InputChange Rope Cursor)
  (self, ShouldRender.Yes, emitted)

/-- `Input::bindings`: set focus from the `focused` property, then
return early if the table is non-empty; otherwise register the cursor
and editing commands. -/
def Input.bindings (focused : Bool) (bindings : Bindings) : Bindings :=
  let bindings := bindings.set_focus focused
  if bindings.is_empty = false then
    bindings
  else
    let bindings := bindings.add "left"
      (BindingRule.keys [KeyEvent.new (KeyCode.Char 98) KeyModifiers.CONTROL])
    let bindings := bindings.add "left"
      (BindingRule.keys [KeyEvent.fromCode KeyCode.Left])
    let bindings := bindings.add "right"
      (BindingRule.keys [KeyEvent.new (KeyCode.Char 102) KeyModifiers.CONTROL])
    let bindings := bindings.add "right"
      (BindingRule.keys [KeyEvent.fromCode KeyCode.Right])
    let bindings := bindings.add "start-of-line"
      (BindingRule.keys [KeyEvent.new (KeyCode.Char 97) KeyModifiers.CONTROL])
    let bindings := bindings.add "start-of-line"
      (BindingRule.keys [KeyEvent.fromCode KeyCode.Home])
    let bindings := bindings.add "end-of-line"
      (BindingRule.keys [KeyEvent.new (KeyCode.Char 101) KeyModifiers.CONTROL])
    let bindings := bindings.add "end-of-line"
      (BindingRule.keys [KeyEvent.fromCode KeyCode.End])
    let bindings := bindings.add "delete-forward"
      (BindingRule.keys [KeyEvent.new (KeyCode.Char 100) KeyModifiers.CONTROL])
    let bindings := bindings.add "delete-forward"
      (BindingRule.keys [KeyEvent.fromCode KeyCode.Delete])
    let bindings := bindings.add "delete-backward"
      (BindingRule.keys [KeyEvent.fromCode KeyCode.Backspace])
    let bindings := bindings.add "insert-character" BindingRule.anyCharacter
    bindings

/-! ## Claims about the key model -/

/-- Claim C1, counterexample: on the event `(Char 'a', SHIFT)` the
claimed clearing of SHIFT does not happen — `normalize_case` yields
`(Char 'A', SHIFT)`, with SHIFT still set. -/
theorem normalizeCase_shift_not_cleared :
    (KeyEvent.normalize_case ⟨KeyCode.Char 97, KeyModifiers.SHIFT⟩).modifiers.shift = true ∧
    KeyEvent.normalize_case ⟨KeyCode.Char 97, KeyModifiers.SHIFT⟩ =
      ⟨KeyCode.Char 65, KeyModifiers.SHIFT⟩ := by
  decide

/-- Claim C1 (amended): if the code is an ASCII lowercase letter and
SHIFT is set, `normalize_case` uppercases the code and leaves the
modifiers — SHIFT included — as they were; if the code is an ASCII
uppercase letter, SHIFT is inserted regardless of input; every
non-`Char` code leaves the event unchanged. -/
theorem normalizeCase_spec_amended (e : KeyEvent) :
    (∀ c, e.code = KeyCode.Char c → isAsciiLowercase c = true →
      e.modifiers.shift = true →
      e.normalize_case = ⟨KeyCode.Char (toAsciiUppercase c), e.modifiers⟩) ∧
    (∀ c, e.code = KeyCode.Char c → isAsciiUppercase c = true →
      e.normalize_case = ⟨e.code, e.modifiers.insert KeyModifiers.SHIFT⟩) ∧
    ((∀ c, e.code ≠ KeyCode.Char c) → e.normalize_case = e) := by
  obtain ⟨code, m⟩ := e
  refine ⟨?_, ?_, ?_⟩
  · intro c hc hl hs
    simp only at hc
    subst hc
    have hs' : m.shift = true := hs
    simp [KeyEvent.normalize_case, not_upper_of_lower c hl,
      contains_SHIFT, hs']
  · intro c hc hu
    simp only at hc
    subst hc
    simp [KeyEvent.normalize_case, hu]
  · intro h
    cases code
    case Char c => exact absurd rfl (h c)
    all_goals rfl

/-- Closed instances of `normalizeCase_spec_amended`: the lowercase
letter with SHIFT, the uppercase letter without modifiers, and a
non-`Char` code. -/
theorem normalizeCase_spec_amended_witness :
    KeyEvent.normalize_case ⟨KeyCode.Char 97, KeyModifiers.SHIFT⟩ =
      ⟨KeyCode.Char (toAsciiUppercase 97), KeyModifiers.SHIFT⟩ ∧
    KeyEvent.normalize_case ⟨KeyCode.Char 65, KeyModifiers.empty⟩ =
      ⟨KeyCode.Char 65, KeyModifiers.empty.insert KeyModifiers.SHIFT⟩ ∧
    KeyEvent.normalize_case ⟨KeyCode.Esc, KeyModifiers.SHIFT⟩ =
      ⟨KeyCode.Esc, KeyModifiers.SHIFT⟩ :=
  ⟨(normalizeCase_spec_amended _).1 97 rfl (by decide) rfl,
   (normalizeCase_spec_amended _).2.1 65 rfl (by decide),
   (normalizeCase_spec_amended _).2.2
     (fun c h => KeyCode.noConfusion h)⟩

/-- Claim C7: `normalize_case` is idempotent — normalizing an already
normalized event changes nothing, component-wise. -/
theorem normalizeCase_idempotent (e : KeyEvent) :
    e.normalize_case.normalize_case = e.normalize_case := by
  obtain ⟨code, m⟩ := e
  cases code
  case Char c =>
    by_cases hu : isAsciiUppercase c = true
    · simp [KeyEvent.normalize_case, hu,
        insert_SHIFT_of_shift _ (insert_SHIFT_shift m)]
    · by_cases hs : m.contains KeyModifiers.SHIFT = true
      · by_cases hl : isAsciiLowercase c = true
        · have hu' := isAsciiUppercase_toAsciiUppercase c hl
          simp [KeyEvent.normalize_case, hu, hs, hu',
            insert_SHIFT_of_shift m (contains_SHIFT m ▸ hs)]
        · have hc : toAsciiUppercase c = c :=
            toAsciiUppercase_of_not_lower c (by simpa using hl)
          simp [KeyEvent.normalize_case, hu, hs, hc]
      · simp [KeyEvent.normalize_case, hu, hs]
  all_goals rfl

/-- Claim C3, counterexample: the derived ordering is computed on the
raw fields, not the normalized ones — `(Char 'A', ∅)` and
`(Char 'a', SHIFT)` compare `lt` even though they are equal (and their
normalized forms compare `eq`). -/
theorem keyEvent_cmp_not_normalized :
    keyEventCmp ⟨KeyCode.Char 65, KeyModifiers.empty⟩
        ⟨KeyCode.Char 97, KeyModifiers.SHIFT⟩ = Ordering.lt ∧
    keyEventEq ⟨KeyCode.Char 65, KeyModifiers.empty⟩
        ⟨KeyCode.Char 97, KeyModifiers.SHIFT⟩ = true ∧
    keyEventCmp
        (KeyEvent.normalize_case ⟨KeyCode.Char 65, KeyModifiers.empty⟩)
        (KeyEvent.normalize_case ⟨KeyCode.Char 97, KeyModifiers.SHIFT⟩)
      = Ordering.eq := by
  decide

/-- Claim C3 (amended): equality and hashing of `KeyEvent` are
computed on the normalized form — two events are equal iff their
normalized `code` and `modifiers` agree, the hasher input coincides
exactly on equal events, and `(Char 'A', ∅)` equals
`(Char 'a', SHIFT)`; the derived ordering, however, compares the raw
fields and need not agree with the ordering of the normalized
forms. -/
theorem keyEvent_eq_hash_after_normalization (a b : KeyEvent) :
    (keyEventEq a b = true ↔
      a.normalize_case.code = b.normalize_case.code ∧
      a.normalize_case.modifiers = b.normalize_case.modifiers) ∧
    (keyEventHashData a = keyEventHashData b ↔ keyEventEq a b = true) ∧
    keyEventEq ⟨KeyCode.Char 65, KeyModifiers.empty⟩
      ⟨KeyCode.Char 97, KeyModifiers.SHIFT⟩ = true := by
  refine ⟨?_, ?_, by decide⟩
  · simp [keyEventEq]
  · simp [keyEventHashData, keyEventEq, Prod.ext_iff]

/-! ## Claims about component identity and the erasure boundary -/

/-- Claim C6: two `ComponentId`s are equal iff they agree on the
concrete type tag and the 64-bit position id, and the diagnostic type
name influences neither equality nor the data fed to the hasher. -/
theorem componentId_identity_ignores_name (a b : ComponentId) :
    (componentIdEq a b = true ↔ a.type_id = b.type_id ∧ a.id = b.id) ∧
    (∀ t i n1 n2, componentIdEq ⟨t, i, n1⟩ ⟨t, i, n2⟩ = true ∧
      componentIdHashData ⟨t, i, n1⟩ = componentIdHashData ⟨t, i, n2⟩) := by
  constructor
  · simp [componentIdEq]
  · intro t i n1 n2
    exact ⟨by simp [componentIdEq], rfl⟩

/-- Claim C2, counterexample: two definitions of the same concrete
type with the same position hash but different explicit keys (`None`
versus `Some 5`) generate equal `ComponentId`s — `generate_id` never
reads the key. -/
theorem generateId_ignores_key :
    componentIdEq
      (ComponentDef.generate_id 0 "zi::Counter"
        (⟨none, some 0⟩ : ComponentDef Nat) 7)
      (ComponentDef.generate_id 0 "zi::Counter"
        (⟨some 5, some 0⟩ : ComponentDef Nat) 7) = true := by
  decide

/-- Claim C2 (amended): `generate_id` combines only the concrete type
and the supplied position hash — two generated ids are equal exactly
when the type tags and the position hashes agree, so the result is
deterministic and sensitive to type and hash; the explicit key, the
held properties and the diagnostic name never influence the id. -/
theorem generateId_eq_iff {P Q : Type} (t t' : Nat) (n n' : String)
    (d : ComponentDef P) (d' : ComponentDef Q) (h h' : Nat) :
    componentIdEq (ComponentDef.generate_id t n d h)
      (ComponentDef.generate_id t' n' d' h') = true ↔ t = t' ∧ h = h' := by
  simp [ComponentDef.generate_id, ComponentId.new, componentIdEq]

/-- Claim C4: once one successful extraction has happened on a
`ComponentDef` — through `create` or through `dynamic_properties` —
any further `create` or `dynamic_properties` on the resulting
definition state aborts (the `expect` panic, embedded as `none`). -/
theorem componentDef_single_consumption {P C : Type}
    (f g : P → Rect → ComponentId → C) (d d' : ComponentDef P)
    (cid cid' : ComponentId) (fr fr' : Rect) :
    ((∃ r, ComponentDef.create f d cid fr = some (r, d')) ∨
      (∃ q, ComponentDef.dynamic_properties d = some (q, d'))) →
    ComponentDef.create g d' cid' fr' = none ∧
      ComponentDef.dynamic_properties d' = none := by
  intro hcall
  have hnone : d'.properties = none := by
    rcases hcall with ⟨r, hr⟩ | ⟨q, hq⟩
    · cases hp : d.properties with
      | none =>
        simp [ComponentDef.create, ComponentDef.properties_unwrap, hp] at hr
      | some p =>
        simp [ComponentDef.create, ComponentDef.properties_unwrap, hp] at hr
        rw [← hr.2]
    · cases hp : d.properties with
      | none =>
        simp [ComponentDef.dynamic_properties,
          ComponentDef.properties_unwrap, hp] at hq
      | some p =>
        simp [ComponentDef.dynamic_properties,
          ComponentDef.properties_unwrap, hp] at hq
        rw [← hq.2]
  constructor
  · simp [ComponentDef.create, ComponentDef.properties_unwrap, hnone]
  · simp [ComponentDef.dynamic_properties,
      ComponentDef.properties_unwrap, hnone]

/-- Closed instance of `componentDef_single_consumption`: after
`create` succeeds on a definition holding properties `3`, both
re-extraction paths return `none`. -/
theorem componentDef_single_consumption_witness :
    ComponentDef.create (fun (p : Nat) (_ : Rect) (_ : ComponentId) => p)
        (⟨none, none⟩ : ComponentDef Nat) ⟨0, 0, "zi"⟩ ⟨(0, 0), (0, 0)⟩
      = none ∧
    ComponentDef.dynamic_properties (⟨none, none⟩ : ComponentDef Nat)
      = none :=
  componentDef_single_consumption
    (fun p _ _ => p) (fun p _ _ => p)
    ⟨none, some 3⟩ ⟨none, none⟩ ⟨0, 0, "zi"⟩ ⟨0, 0, "zi"⟩
    ⟨(0, 0), (0, 0)⟩ ⟨(0, 0), (0, 0)⟩
    (Or.inl ⟨((3, Bindings.new)), rfl⟩)

/-- Claim C5: boxing a concrete value and downcasting at the matching
concrete type returns the original value unchanged; downcasting at any
different concrete type fails, and the erased `update`/`change`
operations abort with the corresponding panic message instead of
proceeding. -/
theorem erasure_roundtrip_law {Val : Nat → Type} {S : Type} (t t' : Nat)
    (v : Val t) (s : S) (f : S → Val t → S × ShouldRender) :
    (AnyBox.downcast t ⟨t, v⟩ = some v) ∧
    (t' ≠ t → AnyBox.downcast t' (⟨t, v⟩ : AnyBox Val) = none) ∧
    (renderableUpdate t f s ⟨t, v⟩ = Except.ok (f s v)) ∧
    (t' ≠ t → ∀ g : S → Val t' → S × ShouldRender,
      renderableUpdate t' g s (⟨t, v⟩ : AnyBox Val) =
        Except.error "Incorrect Message type when downcasting") ∧
    (renderableChange t f s ⟨t, v⟩ = Except.ok (f s v)) ∧
    (t' ≠ t → ∀ g : S → Val t' → S × ShouldRender,
      renderableChange t' g s (⟨t, v⟩ : AnyBox Val) =
        Except.error "Incorrect Properties type when downcasting") := by
  have hnone : ∀ u : Nat, u ≠ t →
      AnyBox.downcast u (⟨t, v⟩ : AnyBox Val) = none := by
    intro u hu
    unfold AnyBox.downcast
    exact dif_neg fun hh => hu hh.symm
  refine ⟨by simp [AnyBox.downcast], fun h => hnone t' h, ?_, ?_, ?_, ?_⟩
  · simp [renderableUpdate, AnyBox.downcast]
  · intro h g
    simp [renderableUpdate, hnone t' h]
  · simp [renderableChange, AnyBox.downcast]
  · intro h g
    simp [renderableChange, hnone t' h]

/-- Closed instance of `erasure_roundtrip_law` over the family sending
every tag to `Nat`, with value `7` boxed at tag `0` and requests at
tags `0` (matching) and `1` (mismatching). -/
theorem erasure_roundtrip_law_witness :
    AnyBox.downcast 0 (⟨0, 7⟩ : AnyBox fun _ => Nat) = some 7 ∧
    AnyBox.downcast 1 (⟨0, 7⟩ : AnyBox fun _ => Nat) = none ∧
    renderableUpdate 0 (fun s m : Nat => (s + m, ShouldRender.Yes)) 1
        (⟨0, 7⟩ : AnyBox fun _ => Nat) = Except.ok (8, ShouldRender.Yes) ∧
    renderableUpdate 1 (fun s m : Nat => (s + m, ShouldRender.Yes)) 1
        (⟨0, 7⟩ : AnyBox fun _ => Nat) =
      Except.error "Incorrect Message type when downcasting" :=
  ⟨(@erasure_roundtrip_law (fun _ => Nat) Nat 0 1 7 1
      (fun s m => (s + m, ShouldRender.Yes))).1,
   (@erasure_roundtrip_law (fun _ => Nat) Nat 0 1 7 1
      (fun s m => (s + m, ShouldRender.Yes))).2.1 (by decide),
   (@erasure_roundtrip_law (fun _ => Nat) Nat 0 1 7 1
      (fun s m => (s + m, ShouldRender.Yes))).2.2.1,
   (@erasure_roundtrip_law (fun _ => Nat) Nat 0 1 7 1
      (fun s m => (s + m, ShouldRender.Yes))).2.2.2.1 (by decide)
     (fun s m => (s + m, ShouldRender.Yes))⟩

/-! ## Claims about the example components -/

/-- Claim C8: a counter created with initial state 0 reaches 1, 2, 3
under three `Increment` messages, each application reporting `Yes`
(render needed); a `Decrement` applied at state 0 saturates — the
state stays 0 and the application reports `No`. -/
theorem counter_scenario :
    (Counter.create ⟨0⟩ ⟨(0, 0), (0, 0)⟩ ()).count = 0 ∧
    Counter.update (Counter.create ⟨0⟩ ⟨(0, 0), (0, 0)⟩ ())
        CounterMessage.Increment = (⟨1, ()⟩, ShouldRender.Yes) ∧
    Counter.update (⟨1, ()⟩ : Counter) CounterMessage.Increment =
      (⟨2, ()⟩, ShouldRender.Yes) ∧
    Counter.update (⟨2, ()⟩ : Counter) CounterMessage.Increment =
      (⟨3, ()⟩, ShouldRender.Yes) ∧
    Counter.update (Counter.create ⟨0⟩ ⟨(0, 0), (0, 0)⟩ ())
        CounterMessage.Decrement =
      (Counter.create ⟨0⟩ ⟨(0, 0), (0, 0)⟩ (), ShouldRender.No) := by
  decide

/-- Claim C9: invoking the binding-population entry points of the
`Counter` and `Input` components on a table that is already non-empty
leaves the table's command rules exactly as they were — the emptiness
check short-circuits before any rule is registered. -/
theorem bindings_population_idempotent (b : Bindings) (focused : Bool)
    (h : b.is_empty = false) :
    (Counter.bindings b).commands = b.commands ∧
    (Input.bindings focused b).commands = b.commands := by
  have h' : b.commands ≠ [] := by
    intro hnil
    rw [Bindings.is_empty, hnil] at h
    simp at h
  constructor
  · simp [Counter.bindings, h]
  · simp [Input.bindings, Bindings.set_focus, Bindings.is_empty, h']

/-- Closed instance of `bindings_population_idempotent`: the table
produced by the first `Counter::bindings` call is non-empty, and a
second population call (by either component) keeps its rules. -/
theorem bindings_population_idempotent_witness :
    (Counter.bindings (Counter.bindings Bindings.new)).commands =
      (Counter.bindings Bindings.new).commands ∧
    (Input.bindings true (Counter.bindings Bindings.new)).commands =
      (Counter.bindings Bindings.new).commands :=
  bindings_population_idempotent (Counter.bindings Bindings.new) true
    (by decide)

/-- Claim C10: for every message, `Input::update` leaves the
component's observable state — its `properties` field and its `frame`
rectangle — unchanged, always reports `Yes`, and communicates the
computed cursor movement and content change only through the optional
`on_change` callback: a change is emitted exactly when the callback is
present. -/
theorem input_update_preserves_state {Style Rope Cursor Cb : Type}
    (ops : CursorOps Rope Cursor) (self : Input Style Rope Cursor Cb)
    (message : InputMessage) :
    (Input.update ops self message).1.properties = self.properties ∧
    (Input.update ops self message).1.frame = self.frame ∧
    (Input.update ops self message).2.1 = ShouldRender.Yes ∧
    (Input.update ops self message).2.2.isSome =
      self.properties.on_change.isSome := by
  refine ⟨rfl, rfl, rfl, ?_⟩
  cases h : self.properties.on_change <;> simp [Input.update, h]
